import Mathlib

/- Verification development for the LocalLLMTranslator browser extension.
   The definitions below are a shallow embedding, transcribed from the
   repository sources: the content script (tap-gesture recognition,
   hover/selection-based undo and context extraction), the injected
   insertion function of background.js, the Ollama translation service
   (bounded retry), and the background onMessage listener. -/

/-! ## JavaScript string primitives

The context extractor runs `text.trim().split(/\s+/)` followed by
`slice`/`join(' ')`.  We model trim and whitespace splitting on the
character list (ASCII whitespace). -/

/-- JS `s.trim()`: strip leading and trailing whitespace. -/
def jsTrim (s : String) : String :=
  String.mk (((s.data.dropWhile Char.isWhitespace).reverse.dropWhile
    Char.isWhitespace).reverse)

/-- Splitting on runs of whitespace, accumulating the current token reversed
in `cur`; empty tokens are never produced.  This is JS `split(/\s+/)` on a
string with no leading whitespace. -/
def splitWsAux : List Char → List Char → List String
  | [], cur => if cur.isEmpty then [] else [String.mk cur.reverse]
  | c :: cs, cur =>
    if c.isWhitespace then
      if cur.isEmpty then splitWsAux cs [] else String.mk cur.reverse :: splitWsAux cs []
    else splitWsAux cs (c :: cur)

/-- JS `s.trim().split(/\s+/)`.  On a string that trims to empty, JS yields
the singleton `[""]`; otherwise the non-empty whitespace-delimited tokens. -/
def wsTokens (s : String) : List String :=
  let t := jsTrim s
  if t = "" then [""] else splitWsAux t.data []

/-- JS `arr.join(' ')`. -/
def joinSp : List String → String
  | [] => ""
  | [x] => x
  | x :: xs => x ++ " " ++ joinSp xs

/-- JS `arr.slice(-10)`: the last (at most) ten entries. -/
def lastTen (l : List String) : List String := l.drop (l.length - 10)

/-- JS `arr.slice(0, 10)`: the first (at most) ten entries. -/
def firstTen (l : List String) : List String := l.take 10

/-- content_script.js keyup listener:
`context.before = beforeFullText.trim().split(/\s+/).slice(-10).join(' ')`. -/
def beforeCtx (s : String) : String := joinSp (lastTen (wsTokens s))

/-- content_script.js keyup listener:
`context.after = afterFullText.trim().split(/\s+/).slice(0, 10).join(' ')`. -/
def afterCtx (s : String) : String := joinSp (firstTen (wsTokens s))

/-! ## DOM model

A minimal DOM: text nodes, and elements carrying tag, class, attributes,
inline style properties and children. -/

inductive DomNode where
  | text (s : String)
  | elem (tag className : String) (attrs styleProps : List (String × String))
      (children : List DomNode)

mutual

/-- JS `node.textContent` (read): concatenation of all descendant text. -/
def textContent : DomNode → String
  | .text s => s
  | .elem _ _ _ _ cs => textContentList cs

/-- Text content of a node list, in order. -/
def textContentList : List DomNode → String
  | [] => ""
  | n :: ns => textContent n ++ textContentList ns

end

/-- JS `elem.getAttribute(name)`; `none` models the JS `null` returned for a
missing attribute or a text node. -/
def getAttribute (n : DomNode) (name : String) : Option String :=
  match n with
  | .text _ => none
  | .elem _ _ attrs _ _ => (attrs.find? (fun p => p.1 == name)).map (·.2)

/-- Class of a node (empty for text nodes). -/
def nodeClassName : DomNode → String
  | .text _ => ""
  | .elem _ c _ _ _ => c

/-- Children of a node. -/
def nodeChildren : DomNode → List DomNode
  | .text _ => []
  | .elem _ _ _ _ cs => cs

/-- Inline style property of a node (`elem.style.x`). -/
def nodeStyle (n : DomNode) (prop : String) : Option String :=
  match n with
  | .text _ => none
  | .elem _ _ _ sp _ => (sp.find? (fun p => p.1 == prop)).map (·.2)

/-- background.js `injectTranslatedText` injected function, the `originalNode`
span: grey, textContent `(${selText})`. -/
def mkOriginalSpan (selText : String) : DomNode :=
  .elem "span" "" [] [("color", "grey")] [.text ("(" ++ selText ++ ")")]

/-- background.js `injectTranslatedText` injected function, the `container`
span: class `translation-modification`, the two data attributes, decorative
styles, and children `[translatedNode, originalNode]` where `translatedNode`
is the text node `transText + " "`. -/
def mkTranslationContainer (selText transText : String) : DomNode :=
  .elem "span" "translation-modification"
    [("data-original-text", selText), ("data-translated-text", transText)]
    [("position", "relative"), ("cursor", "pointer"), ("border-radius", "2px"),
     ("padding", "0 2px"), ("transition", "background-color 0.2s")]
    [.text (transText ++ " "), mkOriginalSpan selText]

/-! ## Page state and the insertion / undo operations

The page is a list of sibling nodes; the live selection, when present, is a
half-open index range `[i, j)` over them (`rangeCount > 0` iff the selection
is `some`).  `range.deleteContents()` removes the covered nodes and collapses
the range; `range.insertNode(container)` puts the container at the collapsed
start, leaving the (never cleared) range around the inserted node. -/

structure Page where
  nodes : List DomNode
  selection : Option (Nat × Nat)

/-- background.js `injectTranslatedText` injected function: reads the page's
current selection; with no range it does nothing, otherwise it runs
`range.deleteContents()` then builds the container and `range.insertNode`s
it.  No selection-clearing call occurs anywhere in the function. -/
def injectTranslatedText (pg : Page) (selText transText : String) : Page :=
  match pg.selection with
  | none => pg
  | some (i, j) =>
    { nodes := pg.nodes.take i ++ mkTranslationContainer selText transText :: pg.nodes.drop j,
      selection := some (i, i + 1) }

/-- content_script.js `undoTranslation`: reads `data-original-text`; when that
is truthy (present and non-empty) the element is replaced by a plain text
node holding it, otherwise nothing happens.  `some r` is the replacement. -/
def undoTranslation (n : DomNode) : Option DomNode :=
  match getAttribute n "data-original-text" with
  | none => none
  | some s => if s = "" then none else some (DomNode.text s)

/-- `parentNode.replaceChild(originalTextNode, translationElement)` applied at
sibling position `i` of the node list. -/
def undoAt (nodes : List DomNode) (i : Nat) : List DomNode :=
  match nodes[i]? with
  | none => nodes
  | some n =>
    match undoTranslation n with
    | none => nodes
    | some r => nodes.set i r

/-! ## Content-script tap decision

`tapDecision` embeds the body of the keyup listener that runs once a brief
tap is recognised.  The browser facts it consumes are snapshotted in a
`TapEnv`: the hover-tracked element, `selection.toString()`, whether a range
exists, the `.translation-modification` elements found by `querySelectorAll`
in the search scope (document order), and how each relates to the selection
range.  `Selection.containsNode(e, true)` — the allow-partial-containment
form the source uses — holds iff the relation is not `outside`;
`containsNode(e, false)` would hold iff it is `inside`. -/

inductive Containment where
  | inside
  | overlap
  | outside
deriving DecidableEq

structure TransElem where
  elemId : Nat
  containment : Containment
deriving DecidableEq

structure TapEnv where
  hovered : Option Nat
  selectionText : String
  rangeCount : Nat
  searchScopeExists : Bool
  scopeTranslations : List TransElem
  beforeRaw : String
  afterRaw : String

inductive TapAction where
  | undoHovered (elemId : Nat)
  | undoContained (elemId : Nat)
  | dispatchTranslate (text before after : String)
  | noop
deriving DecidableEq

/-- The `for (const elem of translationsInScope)` loop: the first element in
document order with `selection.containsNode(elem, true)`. -/
def firstContained (l : List TransElem) : Option TransElem :=
  l.find? (fun e => e.containment != Containment.outside)

/-- content_script.js keyup listener, body of the brief-tap branch: hover
undo first; else the selection-containment scan (only when a range exists
and the search scope element is non-null); else, when the trimmed selection
text is non-empty, dispatch the `translateTextHotkey` message carrying the
extracted context (computed only when a range exists); else nothing. -/
def tapDecision (env : TapEnv) : TapAction :=
  match env.hovered with
  | some h => .undoHovered h
  | none =>
    let selectedText := jsTrim env.selectionText
    let containedHit :=
      if 0 < env.rangeCount ∧ env.searchScopeExists = true then
        firstContained env.scopeTranslations
      else none
    match containedHit with
    | some e => .undoContained e.elemId
    | none =>
      if selectedText ≠ "" then
        .dispatchTranslate selectedText
          (if 0 < env.rangeCount then beforeCtx env.beforeRaw else "")
          (if 0 < env.rangeCount then afterCtx env.afterRaw else "")
      else .noop

/-! ## Gesture recognition (content_script.js keydown/keyup listeners)

Timestamps are integers (`Date.now()`); the recorded press time is
`shiftPressTime : Option Int`, `MAX_SHIFT_TAP_DURATION = 250`. -/

/-- content_script.js keydown listener: on a non-repeat Shift keydown the
current time is recorded; anything else leaves the state alone. -/
def keydownHandler (pt : Option Int) (key : String) (keyRepeat : Bool)
    (now : Int) : Option Int :=
  if key = "Shift" ∧ keyRepeat = false then some now else pt

/-- content_script.js keyup listener: fires only for Shift with a recorded
press time; always clears the press time, and produces a tap action exactly
when the elapsed duration is at most 250 ms.  Returns (new press time,
dispatched action if any). -/
def keyupHandler (pt : Option Int) (key : String) (now : Int) (env : TapEnv) :
    Option Int × Option TapAction :=
  match pt with
  | some t =>
    if key = "Shift" then
      (none, if now - t ≤ 250 then some (tapDecision env) else none)
    else (some t, none)
  | none => (none, none)

/-! ## Translation client retry (translator.js `OllamaTranslateService.translate`)

One call consumes attempt outcomes in order.  `connFail` is a rejection of
the awaited `connect()` (its message always carries the `Connection error` /
`Failed to connect` marker the catch block tests for).  `respError` is a
native-messaging response with an `error` field: the listener increments
`retryCount` and rejects, and because the promise is returned (not awaited)
from inside the `try`, that rejection bypasses the catch block — it is never
retried.  `success` resolves after setting `retryCount = 0`. -/

inductive AttemptOutcome where
  | connFail
  | respError (msg : String)
  | success (result : String)

/-- Result of one `translate()` call: the final `retryCount`, the settled
value, and how many attempts (outcomes) were consumed. -/
structure RunResult where
  finalRc : Nat
  outcome : Except String String
  attempts : Nat

def maxRetries : Nat := 3

/-- translator.js `translate()`: the guard `retryCount >= maxRetries` resets
the counter and throws immediately; otherwise one attempt runs, and only a
connection-class failure with the incremented counter still below
`maxRetries` triggers the recursive retry.  An empty outcome list models a
request that never settles (no further outcome arrives) and ends the run
with no attempt. -/
def translateRun (rc : Nat) (outcomes : List AttemptOutcome) : RunResult :=
  if maxRetries ≤ rc then
    ⟨0, Except.error "Maximum retry attempts reached", 0⟩
  else
    match outcomes with
    | [] => ⟨rc, Except.error "pending", 0⟩
    | o :: rest =>
      match o with
      | .success r => ⟨0, Except.ok r, 1⟩
      | .respError m => ⟨rc + 1, Except.error m, 1⟩
      | .connFail =>
        if rc + 1 < maxRetries then
          let r := translateRun (rc + 1) rest
          ⟨r.finalRc, r.outcome, r.attempts + 1⟩
        else ⟨rc + 1, Except.error "Connection error", 1⟩

/-! ## Background onMessage listener (background.js) -/

structure HotkeyRequest where
  reqType : String
  text : Option String

/-- JS truthiness of `request.text`: `undefined` and `""` are falsy. -/
def jsTruthy : Option String → Bool
  | none => false
  | some s => s != ""

/-- Effects of one listener invocation: whether the guarded async block runs
(settings lookup, translate, inject/showError, `sendResponse`), and whether
the listener returns `true` to signal an async response. -/
structure ListenerOutcome where
  handlesRequest : Bool
  indicatesAsync : Bool
deriving DecidableEq

/-- background.js `chrome.runtime.onMessage` listener: everything is guarded
by `request.type === "translateTextHotkey" && request.text`. -/
def onMessageListener (req : HotkeyRequest) : ListenerOutcome :=
  if req.reqType = "translateTextHotkey" ∧ jsTruthy req.text = true then
    ⟨true, true⟩
  else ⟨false, false⟩

/-! ## Helper lemmas -/

theorem getElemQ_append_cons {α : Type} :
    ∀ (l₁ : List α) (a : α) (l₂ : List α), (l₁ ++ a :: l₂)[l₁.length]? = some a := by
  intro l₁
  induction l₁ with
  | nil => intro a l₂; simp
  | cons x xs ih => intro a l₂; simpa using ih a l₂

theorem set_append_cons {α : Type} :
    ∀ (l₁ : List α) (a b : α) (l₂ : List α),
      (l₁ ++ a :: l₂).set l₁.length b = l₁ ++ b :: l₂ := by
  intro l₁
  induction l₁ with
  | nil => intro a b l₂; rfl
  | cons x xs ih => intro a b l₂; simp [ih]

theorem textContentList_append (l₁ l₂ : List DomNode) :
    textContentList (l₁ ++ l₂) = textContentList l₁ ++ textContentList l₂ := by
  induction l₁ with
  | nil => simp [textContentList, String.empty_append]
  | cons n ns ih => simp [textContentList, ih, String.append_assoc]

theorem getAttribute_container_original (X T : String) :
    getAttribute (mkTranslationContainer X T) "data-original-text" = some X := rfl

theorem getAttribute_container_translated (X T : String) :
    getAttribute (mkTranslationContainer X T) "data-translated-text" = some T := rfl

theorem undoTranslation_container (X T : String) (hX : X ≠ "") :
    undoTranslation (mkTranslationContainer X T) = some (DomNode.text X) := by
  unfold undoTranslation
  rw [getAttribute_container_original]
  simp [hX]

theorem undoAt_append_cons (l₁ l₂ : List DomNode) (n r : DomNode)
    (h : undoTranslation n = some r) :
    undoAt (l₁ ++ n :: l₂) l₁.length = l₁ ++ r :: l₂ := by
  unfold undoAt
  rw [getElemQ_append_cons]
  simp only [h]
  exact set_append_cons l₁ n r l₂

theorem textContent_container (X T : String) :
    textContent (mkTranslationContainer X T) = T ++ " (" ++ X ++ ")" := by
  have h0 : textContent (mkTranslationContainer X T)
      = T ++ " " ++ ("(" ++ X ++ ")" ++ "") := by
    simp [textContent, textContentList, mkTranslationContainer, mkOriginalSpan]
  rw [h0, String.append_empty]
  apply String.ext
  simp only [String.data_append]
  have h1 : (" " : String).data = [' '] := rfl
  have h2 : ("(" : String).data = ['('] := rfl
  have h4 : (" (" : String).data = [' ', '('] := rfl
  simp [h1, h2, h4]

/-! ## Claim C1 -/

/-- C1: undo is a left-inverse of translate.  For any non-empty selected
string X (the live selection covering sibling positions [i, j) whose text
content is X), the inserted composite node carries X in its
data-original-text attribute, and undoing that node replaces it by a plain
text node holding exactly X, restoring the pre-translation document text. -/
theorem c1_undo_left_inverse_of_translate (pg : Page) (X T : String) (i j : Nat)
    (hsel : pg.selection = some (i, j)) (hij : i ≤ j) (hj : j ≤ pg.nodes.length)
    (hX : X ≠ "")
    (htext : textContentList ((pg.nodes.drop i).take (j - i)) = X) :
    (injectTranslatedText pg X T).nodes[i]? = some (mkTranslationContainer X T) ∧
    getAttribute (mkTranslationContainer X T) "data-original-text" = some X ∧
    undoAt (injectTranslatedText pg X T).nodes i
      = pg.nodes.take i ++ DomNode.text X :: pg.nodes.drop j ∧
    textContentList (undoAt (injectTranslatedText pg X T).nodes i)
      = textContentList pg.nodes := by
  have hn : (injectTranslatedText pg X T).nodes
      = pg.nodes.take i ++ mkTranslationContainer X T :: pg.nodes.drop j := by
    simp [injectTranslatedText, hsel]
  have hlen : (pg.nodes.take i).length = i := by
    rw [List.length_take]; omega
  have hget : (injectTranslatedText pg X T).nodes[i]? = some (mkTranslationContainer X T) := by
    rw [hn]
    have h := getElemQ_append_cons (pg.nodes.take i) (mkTranslationContainer X T)
      (pg.nodes.drop j)
    rwa [hlen] at h
  have hundo : undoAt (injectTranslatedText pg X T).nodes i
      = pg.nodes.take i ++ DomNode.text X :: pg.nodes.drop j := by
    rw [hn]
    have h := undoAt_append_cons (pg.nodes.take i) (pg.nodes.drop j)
      (mkTranslationContainer X T) (DomNode.text X) (undoTranslation_container X T hX)
    rwa [hlen] at h
  refine ⟨hget, getAttribute_container_original X T, hundo, ?_⟩
  rw [hundo]
  conv_rhs => rw [← List.take_append_drop i pg.nodes]
  rw [textContentList_append, textContentList_append]
  congr 1
  have hdecomp : pg.nodes.drop i
      = (pg.nodes.drop i).take (j - i) ++ pg.nodes.drop j := by
    conv_lhs => rw [← List.take_append_drop (j - i) (pg.nodes.drop i)]
    congr 1
    rw [List.drop_drop]
    congr 1
    omega
  rw [hdecomp, textContentList_append, htext]
  simp [textContentList, textContent]

/-- Witness for C1 at a concrete page: translating "hello world" and undoing
restores the original single text node. -/
theorem c1_undo_left_inverse_of_translate_witness :
    undoAt (injectTranslatedText ⟨[DomNode.text "hello world"], some (0, 1)⟩
        "hello world" "你好世界").nodes 0
      = [DomNode.text "hello world"] :=
  (c1_undo_left_inverse_of_translate ⟨[DomNode.text "hello world"], some (0, 1)⟩
    "hello world" "你好世界" 0 1 rfl (by decide) (by decide) (by decide) rfl).2.2.1

/-! ## Claim C4 -/

/-- C4: the context window keeps at most 10 whitespace-delimited tokens on
each side, joined with single spaces; with at most 10 tokens available the
field holds exactly the available tokens (no padding, no error), and with 10
or more it holds exactly the nearest 10 — a contiguous run at the selection
end of the token list, in original order (the two append decompositions). -/
theorem c4_context_window (s : String) :
    (lastTen (wsTokens s)).length ≤ 10 ∧
    (firstTen (wsTokens s)).length ≤ 10 ∧
    ((wsTokens s).length ≤ 10 →
      beforeCtx s = joinSp (wsTokens s) ∧ afterCtx s = joinSp (wsTokens s)) ∧
    (10 ≤ (wsTokens s).length →
      (lastTen (wsTokens s)).length = 10 ∧ (firstTen (wsTokens s)).length = 10) ∧
    (wsTokens s).take ((wsTokens s).length - 10) ++ lastTen (wsTokens s) = wsTokens s ∧
    firstTen (wsTokens s) ++ (wsTokens s).drop 10 = wsTokens s := by
  refine ⟨?_, ?_, ?_, ?_, ?_, ?_⟩
  · rw [lastTen, List.length_drop]; omega
  · rw [firstTen, List.length_take]; omega
  · intro h
    constructor
    · rw [beforeCtx, lastTen]
      have : (wsTokens s).length - 10 = 0 := by omega
      rw [this, List.drop_zero]
    · rw [afterCtx, firstTen, List.take_of_length_le h]
  · intro h
    constructor
    · rw [lastTen, List.length_drop]; omega
    · rw [firstTen, List.length_take]; omega
  · rw [lastTen]; exact List.take_append_drop _ _
  · rw [firstTen]; exact List.take_append_drop _ _

/-- Witness for C4: six tokens available before, twelve after. -/
theorem c4_context_window_witness :
    beforeCtx "the quick brown fox jumps over" = joinSp (wsTokens "the quick brown fox jumps over") ∧
    (lastTen (wsTokens "w1 w2 w3 w4 w5 w6 w7 w8 w9 w10 w11 w12")).length = 10 :=
  ⟨((c4_context_window "the quick brown fox jumps over").2.2.1 (by decide)).1,
   ((c4_context_window "w1 w2 w3 w4 w5 w6 w7 w8 w9 w10 w11 w12").2.2.2.1 (by decide)).1⟩

/-! ## Claim C6 -/

/-- C6: every node inserted by a successful translation is the single
container element with class `translation-modification`, attributes
data-original-text = X and data-translated-text = T, whose content is the
text run `T + " "` followed by the grey child span rendering `(X)`; its full
rendered text is `T (X)`. -/
theorem c6_composite_node_shape (pg : Page) (X T : String) (i j : Nat)
    (hsel : pg.selection = some (i, j)) (hij : i ≤ j) (hj : j ≤ pg.nodes.length) :
    (injectTranslatedText pg X T).nodes[i]? = some (mkTranslationContainer X T) ∧
    nodeClassName (mkTranslationContainer X T) = "translation-modification" ∧
    getAttribute (mkTranslationContainer X T) "data-original-text" = some X ∧
    getAttribute (mkTranslationContainer X T) "data-translated-text" = some T ∧
    nodeChildren (mkTranslationContainer X T)
      = [DomNode.text (T ++ " "), mkOriginalSpan X] ∧
    nodeStyle (mkOriginalSpan X) "color" = some "grey" ∧
    textContent (mkOriginalSpan X) = "(" ++ X ++ ")" ∧
    textContent (mkTranslationContainer X T) = T ++ " (" ++ X ++ ")" := by
  have hn : (injectTranslatedText pg X T).nodes
      = pg.nodes.take i ++ mkTranslationContainer X T :: pg.nodes.drop j := by
    simp [injectTranslatedText, hsel]
  have hlen : (pg.nodes.take i).length = i := by
    rw [List.length_take]; omega
  have hget : (injectTranslatedText pg X T).nodes[i]? = some (mkTranslationContainer X T) := by
    rw [hn]
    have h := getElemQ_append_cons (pg.nodes.take i) (mkTranslationContainer X T)
      (pg.nodes.drop j)
    rwa [hlen] at h
  have horig : textContent (mkOriginalSpan X) = "(" ++ X ++ ")" := by
    simp [textContent, textContentList, mkOriginalSpan, String.append_empty]
  exact ⟨hget, rfl, getAttribute_container_original X T,
    getAttribute_container_translated X T, rfl, rfl, horig, textContent_container X T⟩

/-- Witness for C6: the example from the spec: original "hello world",
translation "你好世界", rendered "你好世界 (hello world)". -/
theorem c6_composite_node_shape_witness :
    (injectTranslatedText ⟨[DomNode.text "hello world"], some (0, 1)⟩
        "hello world" "你好世界").nodes[0]?
      = some (mkTranslationContainer "hello world" "你好世界") ∧
    textContent (mkTranslationContainer "hello world" "你好世界")
      = "你好世界 (hello world)" :=
  ⟨(c6_composite_node_shape ⟨[DomNode.text "hello world"], some (0, 1)⟩
      "hello world" "你好世界" 0 1 rfl (by decide) (by decide)).1, rfl⟩

/-! ## Claim C9 -/

/-- C9: the injected insertion function targets whatever selection is live
at completion time: with at least one range, that range's contents are
deleted and the composite node inserted in their place; with no range the
page is left completely unchanged (silent drop, no error). -/
theorem c9_insertion_targets_live_selection (pg : Page) (X T : String) :
    (pg.selection = none → injectTranslatedText pg X T = pg) ∧
    (∀ i j, pg.selection = some (i, j) →
      (injectTranslatedText pg X T).nodes
        = pg.nodes.take i ++ mkTranslationContainer X T :: pg.nodes.drop j) := by
  constructor
  · intro h; simp [injectTranslatedText, h]
  · intro i j h; simp [injectTranslatedText, h]

/-- Witness for C9: both branches at concrete pages. -/
theorem c9_insertion_targets_live_selection_witness :
    injectTranslatedText ⟨[DomNode.text "a"], none⟩ "a" "T" = ⟨[DomNode.text "a"], none⟩ ∧
    (injectTranslatedText ⟨[DomNode.text "a"], some (0, 1)⟩ "a" "T").nodes
      = [mkTranslationContainer "a" "T"] :=
  ⟨(c9_insertion_targets_live_selection ⟨[DomNode.text "a"], none⟩ "a" "T").1 rfl,
   (c9_insertion_targets_live_selection ⟨[DomNode.text "a"], some (0, 1)⟩ "a" "T").2 0 1 rfl⟩

/-! ## Claim C2 -/

theorem find?_eq_some_split {α : Type} (p : α → Bool) :
    ∀ (l : List α) (a : α), l.find? p = some a →
      ∃ l₁ l₂, l = l₁ ++ a :: l₂ ∧ (∀ x ∈ l₁, p x = false) ∧ p a = true := by
  intro l
  induction l with
  | nil => intro a h; simp at h
  | cons x xs ih =>
    intro a h
    by_cases hx : p x = true
    · rw [List.find?_cons_of_pos _ hx] at h
      cases h
      exact ⟨[], xs, rfl, by simp, hx⟩
    · have hx' : ¬ p x := by simpa using hx
      rw [List.find?_cons_of_neg _ hx'] at h
      obtain ⟨l₁, l₂, rfl, hall, hp⟩ := ih a h
      refine ⟨x :: l₁, l₂, rfl, ?_, hp⟩
      intro y hy
      rcases List.mem_cons.mp hy with rfl | hy
      · simpa using hx
      · exact hall y hy

theorem firstContained_eq_some_split (l : List TransElem) (a : TransElem)
    (h : firstContained l = some a) :
    ∃ l₁ l₂, l = l₁ ++ a :: l₂ ∧ (∀ x ∈ l₁, x.containment = Containment.outside) ∧
      a.containment ≠ Containment.outside := by
  unfold firstContained at h
  obtain ⟨l₁, l₂, hsplit, hall, hp⟩ :=
    find?_eq_some_split (fun e => e.containment != Containment.outside) l a h
  refine ⟨l₁, l₂, hsplit, ?_, by simpa using hp⟩
  intro x hx
  have hfx := hall x hx
  simpa using hfx

theorem tapDecision_hovered_eq (env : TapEnv) (h : Nat)
    (hh : env.hovered = some h) :
    tapDecision env = TapAction.undoHovered h := by
  unfold tapDecision
  rw [hh]

theorem tapDecision_none_eq (env : TapEnv) (hh : env.hovered = none) :
    tapDecision env =
      match (if 0 < env.rangeCount ∧ env.searchScopeExists = true then
          firstContained env.scopeTranslations else none) with
      | some e => TapAction.undoContained e.elemId
      | none =>
        if jsTrim env.selectionText ≠ "" then
          TapAction.dispatchTranslate (jsTrim env.selectionText)
            (if 0 < env.rangeCount then beforeCtx env.beforeRaw else "")
            (if 0 < env.rangeCount then afterCtx env.afterRaw else "")
        else TapAction.noop := by
  unfold tapDecision
  rw [hh]

theorem tapDecision_contained_eq (env : TapEnv) (e : TransElem)
    (hh : env.hovered = none)
    (hc : 0 < env.rangeCount ∧ env.searchScopeExists = true)
    (hf : firstContained env.scopeTranslations = some e) :
    tapDecision env = TapAction.undoContained e.elemId := by
  rw [tapDecision_none_eq env hh, if_pos hc, hf]

theorem tapDecision_nocontain_eq (env : TapEnv) (hh : env.hovered = none)
    (hno : (if 0 < env.rangeCount ∧ env.searchScopeExists = true then
        firstContained env.scopeTranslations else none) = none) :
    tapDecision env =
      if jsTrim env.selectionText ≠ "" then
        TapAction.dispatchTranslate (jsTrim env.selectionText)
          (if 0 < env.rangeCount then beforeCtx env.beforeRaw else "")
          (if 0 < env.rangeCount then afterCtx env.afterRaw else "")
      else TapAction.noop := by
  rw [tapDecision_none_eq env hh, hno]

/-- C2 refuted as stated: with no hover, a non-empty selection and a single
translation node that the selection only PARTIALLY contains — so
`containsNode(e, true)` holds while full containment fails — the code undoes
that node rather than proceeding to translate dispatch.  Under the claim's
"fully contained by the selection" condition nothing would be undone here
and the tap would dispatch a translation. -/
theorem c2_counterexample :
    tapDecision ⟨none, "hello", 1, true, [⟨7, Containment.overlap⟩], "", ""⟩
      = TapAction.undoContained 7 ∧
    List.find? (fun e => e.containment == Containment.inside)
      [(⟨7, Containment.overlap⟩ : TransElem)] = none :=
  ⟨rfl, rfl⟩

/-- C2 as amended: the fixed decision order holds with step 2 keyed on
at-least-partial containment (`containsNode(·, true)`), not full
containment.  (1) A hovered node is always undone; (2) with no hover, a
live range and a search scope, the first at-least-partially-contained node
is undone; (3) any containment undo happens only with no hover, a live
range and a scope, and only on the first node in document order that the
selection at least partially contains — every earlier node in the scope is
fully outside; (4) translate dispatch happens only with no hover, a
non-empty trimmed selection, and no (even partially) contained node. -/
theorem c2_undo_or_translate_order (env : TapEnv) :
    (∀ h, env.hovered = some h → tapDecision env = TapAction.undoHovered h) ∧
    (env.hovered = none → 0 < env.rangeCount → env.searchScopeExists = true →
      ∀ el, firstContained env.scopeTranslations = some el →
        tapDecision env = TapAction.undoContained el.elemId) ∧
    (∀ eid, tapDecision env = TapAction.undoContained eid →
      env.hovered = none ∧ 0 < env.rangeCount ∧ env.searchScopeExists = true ∧
      ∃ l₁ el l₂, env.scopeTranslations = l₁ ++ el :: l₂ ∧ el.elemId = eid ∧
        el.containment ≠ Containment.outside ∧
        ∀ x ∈ l₁, x.containment = Containment.outside) ∧
    (∀ t b a, tapDecision env = TapAction.dispatchTranslate t b a →
      env.hovered = none ∧ t = jsTrim env.selectionText ∧ t ≠ "" ∧
      ((0 < env.rangeCount ∧ env.searchScopeExists = true) →
        firstContained env.scopeTranslations = none)) := by
  refine ⟨?_, ?_, ?_, ?_⟩
  · intro h hh
    exact tapDecision_hovered_eq env h hh
  · intro hh hr hscope el hf
    exact tapDecision_contained_eq env el hh ⟨hr, hscope⟩ hf
  · intro eid hact
    cases hh : env.hovered with
    | some h =>
      rw [tapDecision_hovered_eq env h hh] at hact
      simp at hact
    | none =>
      by_cases hc : 0 < env.rangeCount ∧ env.searchScopeExists = true
      · cases hf : firstContained env.scopeTranslations with
        | none =>
          rw [tapDecision_nocontain_eq env hh (by rw [if_pos hc, hf])] at hact
          by_cases hs : jsTrim env.selectionText ≠ ""
          · rw [if_pos hs] at hact; simp at hact
          · rw [if_neg hs] at hact; simp at hact
        | some e =>
          rw [tapDecision_contained_eq env e hh hc hf] at hact
          simp only [TapAction.undoContained.injEq] at hact
          obtain ⟨l₁, l₂, hsplit, hall, hp⟩ := firstContained_eq_some_split _ e hf
          exact ⟨rfl, hc.1, hc.2, l₁, e, l₂, hsplit, hact, hp, hall⟩
      · rw [tapDecision_nocontain_eq env hh (by rw [if_neg hc])] at hact
        by_cases hs : jsTrim env.selectionText ≠ ""
        · rw [if_pos hs] at hact; simp at hact
        · rw [if_neg hs] at hact; simp at hact
  · intro t b a hact
    cases hh : env.hovered with
    | some h =>
      rw [tapDecision_hovered_eq env h hh] at hact
      simp at hact
    | none =>
      by_cases hc : 0 < env.rangeCount ∧ env.searchScopeExists = true
      · cases hf : firstContained env.scopeTranslations with
        | some e =>
          rw [tapDecision_contained_eq env e hh hc hf] at hact
          simp at hact
        | none =>
          rw [tapDecision_nocontain_eq env hh (by rw [if_pos hc, hf])] at hact
          by_cases hs : jsTrim env.selectionText ≠ ""
          · rw [if_pos hs] at hact
            simp only [TapAction.dispatchTranslate.injEq] at hact
            exact ⟨rfl, hact.1.symm, hact.1 ▸ hs, fun _ => rfl⟩
          · rw [if_neg hs] at hact
            simp at hact
      · rw [tapDecision_nocontain_eq env hh (by rw [if_neg hc])] at hact
        by_cases hs : jsTrim env.selectionText ≠ ""
        · rw [if_pos hs] at hact
          simp only [TapAction.dispatchTranslate.injEq] at hact
          exact ⟨rfl, hact.1.symm, hact.1 ▸ hs, fun hcc => absurd hcc hc⟩
        · rw [if_neg hs] at hact
          simp at hact

/-- Witness for C2 (amended): in a scope holding an outside node then a
fully-inside node, the undo fires on the second — the first node at least
partially contained in document order. -/
theorem c2_undo_or_translate_order_witness :
    ∃ l₁ el l₂,
      ([⟨4, Containment.outside⟩, ⟨5, Containment.inside⟩] : List TransElem)
        = l₁ ++ el :: l₂ ∧ el.elemId = 5 ∧ el.containment ≠ Containment.outside ∧
      ∀ x ∈ l₁, x.containment = Containment.outside :=
  (((c2_undo_or_translate_order ⟨none, "x", 1, true,
      [⟨4, Containment.outside⟩, ⟨5, Containment.inside⟩], "", ""⟩).2.2.1 5 rfl).2.2.2)

/-! ## Claim C5 -/

theorem keyupHandler_some_shift (pt : Option Int) (t now : Int) (env : TapEnv)
    (hpt : pt = some t) :
    keyupHandler pt "Shift" now env
      = (none, if now - t ≤ 250 then some (tapDecision env) else none) := by
  rw [hpt]
  simp [keyupHandler]

/-- C5: for every Shift key-up, the recorded press timestamp is reset to
absent regardless of outcome; nothing is dispatched when the elapsed press
duration exceeds 250 ms; any dispatched action requires a recorded matching
key-down with duration at most 250 ms (and is the tap decision); and a
non-repeat Shift key-down records the current time. -/
theorem c5_tap_duration_gate (pt : Option Int) (now : Int) (env : TapEnv) :
    (keyupHandler pt "Shift" now env).1 = none ∧
    (∀ t, pt = some t → 250 < now - t → (keyupHandler pt "Shift" now env).2 = none) ∧
    (∀ a, (keyupHandler pt "Shift" now env).2 = some a →
      ∃ t, pt = some t ∧ now - t ≤ 250 ∧ a = tapDecision env) ∧
    keydownHandler pt "Shift" false now = some now := by
  refine ⟨?_, ?_, ?_, ?_⟩
  · cases pt with
    | none => simp [keyupHandler]
    | some t => rw [keyupHandler_some_shift (some t) t now env rfl]
  · intro t hpt hgt
    rw [keyupHandler_some_shift pt t now env hpt]
    simp only []
    rw [if_neg (by omega)]
  · intro a ha
    cases pt with
    | none =>
      simp [keyupHandler] at ha
    | some t =>
      rw [keyupHandler_some_shift (some t) t now env rfl] at ha
      by_cases hd : now - t ≤ 250
      · rw [if_pos hd] at ha
        simp only [Option.some.injEq] at ha
        exact ⟨t, rfl, hd, ha.symm⟩
      · rw [if_neg hd] at ha
        simp at ha
  · simp [keydownHandler]

/-- Witness for C5: a 300 ms press dispatches nothing and clears the state. -/
theorem c5_tap_duration_gate_witness :
    (keyupHandler (some 0) "Shift" 300 ⟨none, "", 0, false, [], "", ""⟩).2 = none ∧
    (keyupHandler (some 0) "Shift" 300 ⟨none, "", 0, false, [], "", ""⟩).1 = none :=
  ⟨(c5_tap_duration_gate (some 0) 300 ⟨none, "", 0, false, [], "", ""⟩).2.1 0 rfl
      (by decide),
   (c5_tap_duration_gate (some 0) 300 ⟨none, "", 0, false, [], "", ""⟩).1⟩

/-! ## Claim C7 -/

/-- C7 refuted as stated: after a successful insertion the selection is NOT
cleared — the injected function contains no selection-clearing call
(no removeAllRanges / empty), so the page still has an active range. -/
theorem c7_counterexample :
    (injectTranslatedText ⟨[DomNode.text "abc"], some (0, 1)⟩ "abc" "T").selection.isSome
      = true := rfl

/-- C7 as amended: after every successful insertion the browser selection is
left in place, not cleared: the injected function only mutates the range via
deleteContents and insertNode, so an active range (around the insertion
point) remains and `rangeCount` stays positive. -/
theorem c7_selection_not_cleared (pg : Page) (X T : String) (i j : Nat)
    (hsel : pg.selection = some (i, j)) :
    (injectTranslatedText pg X T).selection.isSome = true := by
  simp [injectTranslatedText, hsel]

/-- Witness for C7 (amended). -/
theorem c7_selection_not_cleared_witness :
    (injectTranslatedText ⟨[DomNode.text "xy", DomNode.text "z"], some (1, 2)⟩
        "z" "T2").selection.isSome = true :=
  c7_selection_not_cleared ⟨[DomNode.text "xy", DomNode.text "z"], some (1, 2)⟩
    "z" "T2" 1 2 rfl

/-! ## Claim C8 -/

/-- C8 refuted as stated: the containment-undo scan runs BEFORE the
empty-selection check, so a tap whose selection text trims to empty but
whose live range still at-least-partially contains a translation node (for
example a range starting at the container's trailing edge and ending in
following whitespace: its toString is whitespace-only, yet
`containsNode(container, true)` holds because the container is an inclusive
ancestor of the start boundary alone) undoes that node — a DOM mutation,
not a silent no-op. -/
theorem c8_counterexample :
    jsTrim "" = "" ∧
    tapDecision ⟨none, "", 1, true, [⟨3, Containment.overlap⟩], "", ""⟩
      = TapAction.undoContained 3 ∧
    ¬ tapDecision ⟨none, "", 1, true, [⟨3, Containment.overlap⟩], "", ""⟩
      = TapAction.noop :=
  ⟨rfl, rfl, by decide⟩

/-- C8 as amended: a tap with no hover target, selection text empty after
trimming, and no translation node even partially contained in the selection
is a silent no-op (no dispatch, no undo, no error). -/
theorem c8_empty_tap_noop (env : TapEnv)
    (hh : env.hovered = none) (ht : jsTrim env.selectionText = "")
    (hc : ∀ e ∈ env.scopeTranslations, e.containment = Containment.outside) :
    tapDecision env = TapAction.noop := by
  have hfc : firstContained env.scopeTranslations = none := by
    unfold firstContained
    rw [List.find?_eq_none]
    intro x hx
    simp [hc x hx]
  have hno : (if 0 < env.rangeCount ∧ env.searchScopeExists = true then
      firstContained env.scopeTranslations else none) = none := by
    by_cases hcond : 0 < env.rangeCount ∧ env.searchScopeExists = true
    · rw [if_pos hcond, hfc]
    · rw [if_neg hcond]
  rw [tapDecision_nocontain_eq env hh hno, if_neg (by simp [ht])]

/-- Witness for C8 (amended): whitespace-only selection, no hover, no
translation nodes in scope. -/
theorem c8_empty_tap_noop_witness :
    tapDecision ⟨none, " ", 0, false, [], "", ""⟩ = TapAction.noop :=
  c8_empty_tap_noop ⟨none, " ", 0, false, [], "", ""⟩ rfl rfl
    (by intro e he; cases he)

/-! ## Claim C3 -/

theorem translateRun_maxed (l : List AttemptOutcome) (rc : Nat) (h : maxRetries ≤ rc) :
    translateRun rc l = ⟨0, Except.error "Maximum retry attempts reached", 0⟩ := by
  unfold translateRun
  rw [if_pos h]

theorem translateRun_nil (rc : Nat) (h : rc < maxRetries) :
    translateRun rc [] = ⟨rc, Except.error "pending", 0⟩ := by
  unfold translateRun
  rw [if_neg (by omega)]

theorem translateRun_success (rc : Nat) (r : String) (rest : List AttemptOutcome)
    (h : rc < maxRetries) :
    translateRun rc (AttemptOutcome.success r :: rest) = ⟨0, Except.ok r, 1⟩ := by
  unfold translateRun
  rw [if_neg (by omega)]

theorem translateRun_respError (rc : Nat) (m : String) (rest : List AttemptOutcome)
    (h : rc < maxRetries) :
    translateRun rc (AttemptOutcome.respError m :: rest)
      = ⟨rc + 1, Except.error m, 1⟩ := by
  unfold translateRun
  rw [if_neg (by omega)]

theorem translateRun_connFail (rc : Nat) (rest : List AttemptOutcome)
    (h : rc < maxRetries) :
    translateRun rc (AttemptOutcome.connFail :: rest)
      = if rc + 1 < maxRetries then
          ⟨(translateRun (rc + 1) rest).finalRc, (translateRun (rc + 1) rest).outcome,
            (translateRun (rc + 1) rest).attempts + 1⟩
        else ⟨rc + 1, Except.error "Connection error", 1⟩ := by
  conv_lhs => unfold translateRun
  rw [if_neg (by omega)]

theorem translateRun_attempts_le (outcomes : List AttemptOutcome) :
    ∀ rc, (translateRun rc outcomes).attempts ≤ maxRetries - rc := by
  induction outcomes with
  | nil =>
    intro rc
    by_cases h : maxRetries ≤ rc
    · rw [translateRun_maxed _ _ h]
      simp
    · rw [translateRun_nil rc (by omega)]
      simp
  | cons o rest ih =>
    intro rc
    by_cases h : maxRetries ≤ rc
    · rw [translateRun_maxed _ _ h]
      simp
    · cases o with
      | success r =>
        rw [translateRun_success rc r rest (by omega)]
        show 1 ≤ maxRetries - rc
        simp only [maxRetries] at h ⊢
        omega
      | respError m =>
        rw [translateRun_respError rc m rest (by omega)]
        show 1 ≤ maxRetries - rc
        simp only [maxRetries] at h ⊢
        omega
      | connFail =>
        rw [translateRun_connFail rc rest (by omega)]
        by_cases h2 : rc + 1 < maxRetries
        · rw [if_pos h2]
          have hle := ih (rc + 1)
          show (translateRun (rc + 1) rest).attempts + 1 ≤ maxRetries - rc
          simp only [maxRetries] at h2 hle ⊢
          omega
        · rw [if_neg h2]
          show 1 ≤ maxRetries - rc
          simp only [maxRetries] at h ⊢
          omega

/-- C3 refuted as stated: feeding one request a stream of four consecutive
transport failures, the code consumes only THREE attempts (the initial one
plus two retries, not three), surfaces the connection error, and leaves the
retry counter at 3 — it is not reset to 0 within this request. -/
theorem c3_counterexample :
    (translateRun 0 [AttemptOutcome.connFail, AttemptOutcome.connFail,
        AttemptOutcome.connFail, AttemptOutcome.connFail]).attempts = 3 ∧
    (translateRun 0 [AttemptOutcome.connFail, AttemptOutcome.connFail,
        AttemptOutcome.connFail, AttemptOutcome.connFail]).finalRc = 3 ∧
    ¬ (translateRun 0 [AttemptOutcome.connFail, AttemptOutcome.connFail,
        AttemptOutcome.connFail, AttemptOutcome.connFail]).finalRc = 0 :=
  ⟨rfl, rfl, by decide⟩

/-- C3 as amended: retries happen only for connection-class failures.  From
a fresh counter, three consecutive transport failures exhaust the request:
exactly 2 retries (3 attempts) occur, the third failure surfaces the
connection error, and the counter is left at maxRetries = 3 — the reset to
0 happens only at the head of the NEXT call, which then fails immediately
with "Maximum retry attempts reached" after 0 attempts.  A success settles
after its single attempt and resets the counter to 0; a service/response
error (malformed response or explicit rejection) surfaces immediately after
its single attempt with no retry, incrementing the counter.  No call ever
consumes more than maxRetries - rc attempts. -/
theorem c3_retry_budget (rc : Nat) (rest : List AttemptOutcome) (m r : String) :
    translateRun 0 (AttemptOutcome.connFail :: AttemptOutcome.connFail ::
        AttemptOutcome.connFail :: rest)
      = ⟨3, Except.error "Connection error", 3⟩ ∧
    (maxRetries ≤ rc →
      translateRun rc rest = ⟨0, Except.error "Maximum retry attempts reached", 0⟩) ∧
    (rc < maxRetries →
      translateRun rc (AttemptOutcome.success r :: rest) = ⟨0, Except.ok r, 1⟩) ∧
    (rc < maxRetries →
      translateRun rc (AttemptOutcome.respError m :: rest)
        = ⟨rc + 1, Except.error m, 1⟩) ∧
    (translateRun rc rest).attempts ≤ maxRetries - rc :=
  ⟨rfl, translateRun_maxed rest rc, translateRun_success rc r rest,
   translateRun_respError rc m rest, translateRun_attempts_le rest rc⟩

/-- Witness for C3 (amended): a success on the third allowed attempt resets
the counter; a call entered with the counter exhausted fails immediately
and resets it. -/
theorem c3_retry_budget_witness :
    translateRun 2 [AttemptOutcome.success "ok"] = ⟨0, Except.ok "ok", 1⟩ ∧
    translateRun 3 [] = ⟨0, Except.error "Maximum retry attempts reached", 0⟩ :=
  ⟨(c3_retry_budget 2 [] "m" "ok").2.2.1 (by decide),
   (c3_retry_budget 3 [] "m" "ok").2.1 (by decide)⟩

/-! ## Claim C10 -/

/-- C10: an inbound runtime message of type "translateTextHotkey" whose text
field is absent or empty is ignored entirely: the guarded async block never
runs (no settings lookup, no translate call, no script injection, no
sendResponse of any kind) and the listener does not return true. -/
theorem c10_empty_hotkey_text_ignored (req : HotkeyRequest)
    (_htype : req.reqType = "translateTextHotkey")
    (htext : req.text = none ∨ req.text = some "") :
    onMessageListener req = ⟨false, false⟩ := by
  have hf : jsTruthy req.text = false := by
    rcases htext with h | h <;> simp [h, jsTruthy]
  unfold onMessageListener
  rw [if_neg]
  simp [hf]

/-- Witness for C10: both falsy shapes of the text field. -/
theorem c10_empty_hotkey_text_ignored_witness :
    onMessageListener ⟨"translateTextHotkey", some ""⟩ = ⟨false, false⟩ ∧
    onMessageListener ⟨"translateTextHotkey", none⟩ = ⟨false, false⟩ :=
  ⟨c10_empty_hotkey_text_ignored ⟨"translateTextHotkey", some ""⟩ rfl (Or.inr rfl),
   c10_empty_hotkey_text_ignored ⟨"translateTextHotkey", none⟩ rfl (Or.inl rfl)⟩
